import Mathlib

/-!
Shallow embedding of the Substrate notifications-protocol substream upgrade
(source file `client/network/src/protocol/generic_proto/upgrade/notifications.rs`).

The embedding covers:
* the two constants `MAX_HANDSHAKE_SIZE` and `MAX_PENDING_MESSAGES`;
* the upgrade descriptors `NotificationsIn` / `NotificationsOut`;
* the inbound and outbound handshake routines (`upgrade_inbound`,
  `upgrade_outbound`), over a chunked raw byte stream that models the
  `AsyncRead` channel (one `read` call returns at most the first pending
  chunk, and returns zero bytes at end of stream);
* the inbound substream (`send_handshake`, the `Stream::poll_next` loop over
  the handshake-reply state machine `NotSent / PendingSend / Close / Sent`);
* the outbound substream (`push_message`, `Sink::poll_ready`, `poll_flush`,
  `poll_close`) over a framed socket modelled as an oracle: each sink
  operation consumes the next scheduled response (ready / pending / error)
  and records every frame started into the sink, in order.

Bytes are `Nat`; I/O errors carry an abstract numeric code.
-/

namespace Notifications

/-- Result of polling an asynchronous operation, mirroring `core::task::Poll`:
either ready with a value, or pending. -/
inductive Poll (α : Type) where
  | ready : α → Poll α
  | pending : Poll α
deriving DecidableEq

/-- A message or payload: a byte sequence. -/
abbrev Msg := List Nat

deriving instance DecidableEq for Except

/-- Error type of the two handshake routines (`NotificationsHandshakeError` in
the source). `Io` and `VarintDecode` carry an abstract error code. -/
inductive NotificationsHandshakeError where
  | Io (e : Nat)
  | TooLarge (requested : Nat) (max : Nat)
  | VarintDecode (e : Nat)
deriving DecidableEq

/-- Error type of the outbound substream (`NotificationsOutError`). -/
inductive NotificationsOutError where
  | Io (e : Nat)
  | Clogged
deriving DecidableEq

/-- Maximum allowed size of the two handshake messages, in bytes. -/
def MAX_HANDSHAKE_SIZE : Nat := 1024

/-- Maximum number of buffered messages before we refuse to accept more. -/
def MAX_PENDING_MESSAGES : Nat := 512

/-! ## The raw byte channel used by the handshake routines

The handshake routines act on the not-yet-framed substream (`TSubstream`,
an `AsyncRead + AsyncWrite` channel). We model its inbound direction as a
list of chunks: one `read` call into a buffer of size `n` copies at most
`n` bytes out of the first chunk (this is the `AsyncRead::read` contract: a
read may return fewer bytes than the buffer holds), and returns no bytes
once the stream is exhausted (end of stream is `Ok(0)`, not an error).
Outbound bytes are appended to `sent`. -/

structure RawSocket where
  chunks : List (List Nat)
  sent : List Nat
deriving DecidableEq

/-- One `read` call into a buffer of `n` bytes: takes at most `n` bytes from
the first pending chunk. Returns the bytes read and the rest of the stream. -/
def RawSocket.readInto (s : RawSocket) (n : Nat) : List Nat × RawSocket :=
  match s.chunks with
  | [] => ([], s)
  | c :: rest =>
      let taken := c.take n
      let left := c.drop n
      (taken, { s with chunks := if left.isEmpty then rest else left :: rest })

/-- Read a single byte, as the varint reader does; `none` is end of stream. -/
def RawSocket.readByte (s : RawSocket) : Option (Nat × RawSocket) :=
  match s.readInto 1 with
  | ([b], s') => some (b, s')
  | _ => none

/-- Little-endian base-128 varint encoding, 7 bits per byte, fuelled with
10 bytes (enough for any 64-bit usize, so total on every length the source
can see). -/
def varintEncodeAux : Nat → Nat → List Nat
  | 0, _ => []
  | fuel + 1, n =>
      if n < 128 then [n]
      else (n % 128 + 128) :: varintEncodeAux fuel (n / 128)

/-- Little-endian base-128 varint encoding of a length, used by
`upgrade::write_with_len_prefix` when the outbound handshake writes the
initial message. -/
def varintEncode (n : Nat) : List Nat :=
  varintEncodeAux 10 n

/-- Core loop of `unsigned_varint::aio::read_usize`: read bytes one at a
time, accumulating 7 payload bits per byte, until a byte without the
continuation bit arrives. End of stream inside a varint is an I/O error;
a varint longer than the fuel (10 bytes, the maximum for a 64-bit usize)
is a decode error. -/
def readUsizeAux : Nat → RawSocket → Nat → Nat →
    Except NotificationsHandshakeError (Nat × RawSocket)
  | 0, _, _, _ => .error (.VarintDecode 0)
  | fuel + 1, s, shift, acc =>
      match s.readByte with
      | none => .error (.Io 0)
      | some (b, s') =>
          let acc' := acc + b % 128 * 2 ^ shift
          if b < 128 then .ok (acc', s')
          else readUsizeAux fuel s' (shift + 7) acc'

/-- Model of `unsigned_varint::aio::read_usize`. -/
def read_usize (s : RawSocket) : Except NotificationsHandshakeError (Nat × RawSocket) :=
  readUsizeAux 10 s 0 0

/-- Model of `upgrade::write_with_len_prefix`: append the varint length
prefix followed by the message to the channel's outbound bytes. -/
def writeLenPrefixed (s : RawSocket) (msg : Msg) : RawSocket :=
  { s with sent := s.sent ++ varintEncode msg.length ++ msg }

/-! ## Upgrade descriptors -/

/-- Upgrade descriptor for the inbound side (`NotificationsIn`). -/
structure NotificationsIn where
  protocol_name : List Nat
deriving DecidableEq

/-- Builds a new potential inbound upgrade (`NotificationsIn::new`). -/
def NotificationsIn.new (protocol_name : List Nat) : NotificationsIn :=
  { protocol_name := protocol_name }

/-- Upgrade descriptor for the outbound side (`NotificationsOut`). -/
structure NotificationsOut where
  protocol_name : List Nat
  initial_message : Msg
deriving DecidableEq

/-- Builds a new potential outbound upgrade (`NotificationsOut::new`). The
source logs an error-level message when `initial_message` exceeds
`MAX_HANDSHAKE_SIZE` but constructs the descriptor regardless; logging has
no observable effect in the model. -/
def NotificationsOut.new (protocol_name : List Nat) (initial_message : Msg) :
    NotificationsOut :=
  let _oversized := initial_message.length > MAX_HANDSHAKE_SIZE
  { protocol_name := protocol_name, initial_message := initial_message }

/-! ## Handshake routines

`upgrade_inbound` reads the initial message's varint length, rejects it when
it exceeds `MAX_HANDSHAKE_SIZE`, allocates a zero-filled buffer of that
length, and — exactly as the source does — performs a single `read` call
into it when it is non-empty, ignoring how many bytes that read returned.
The returned payload is therefore the bytes of that one read, zero-padded
to the announced length. `upgrade_outbound` first writes our initial
message length-prefixed, then reads the reply the same way. Both return the
payload and the leftover channel (the source wraps the leftover channel in
a `Framed` codec, modelled separately below as `Socket`). -/

def upgrade_inbound (socket : RawSocket) :
    Except NotificationsHandshakeError (Msg × RawSocket) :=
  match read_usize socket with
  | .error e => .error e
  | .ok (initial_message_len, socket) =>
      if initial_message_len > MAX_HANDSHAKE_SIZE then
        .error (.TooLarge initial_message_len MAX_HANDSHAKE_SIZE)
      else if initial_message_len = 0 then
        .ok ([], socket)
      else
        let (got, socket') := socket.readInto initial_message_len
        .ok (got ++ List.replicate (initial_message_len - got.length) 0, socket')

def upgrade_outbound (descriptor : NotificationsOut) (socket : RawSocket) :
    Except NotificationsHandshakeError (Msg × RawSocket) :=
  let socket := writeLenPrefixed socket descriptor.initial_message
  match read_usize socket with
  | .error e => .error e
  | .ok (handshake_len, socket) =>
      if handshake_len > MAX_HANDSHAKE_SIZE then
        .error (.TooLarge handshake_len MAX_HANDSHAKE_SIZE)
      else if handshake_len = 0 then
        .ok ([], socket)
      else
        let (got, socket') := socket.readInto handshake_len
        .ok (got ++ List.replicate (handshake_len - got.length) 0, socket')

/-! ## The framed socket used by the substreams

After the handshake the source wraps the channel in a
`Framed<TSubstream, UviBytes>` codec and drives it through the `Sink` and
`Stream` traits. That codec is external library code, so we model the framed
socket as an oracle: each of `poll_ready`, `start_send`, `poll_flush`,
`poll_close` and `poll_next` (reading) consumes the next response of its own
schedule; an empty schedule answers ready/success. Every frame accepted by
`start_send` is appended to `written`, in order, which is what the peer
observes. -/

structure Socket where
  readyEv : List (Poll (Except Nat Unit))
  sendEv : List (Except Nat Unit)
  flushEv : List (Poll (Except Nat Unit))
  closeEv : List (Poll (Except Nat Unit))
  readEv : List (Poll (Option (Except Nat Msg)))
  written : List Msg
deriving DecidableEq

/-- Model of `Sink::poll_ready` on the framed socket. -/
def Socket.pollReady (s : Socket) : Poll (Except Nat Unit) × Socket :=
  (s.readyEv.headD (.ready (.ok ())), { s with readyEv := s.readyEv.tail })

/-- Model of `Sink::start_send` on the framed socket: on success the frame is
recorded in `written`. -/
def Socket.startSend (s : Socket) (m : Msg) : Except Nat Unit × Socket :=
  match s.sendEv.headD (.ok ()) with
  | .ok _ => (.ok (), { s with sendEv := s.sendEv.tail, written := s.written ++ [m] })
  | .error e => (.error e, { s with sendEv := s.sendEv.tail })

/-- Model of `Sink::poll_flush` on the framed socket. -/
def Socket.pollFlush (s : Socket) : Poll (Except Nat Unit) × Socket :=
  (s.flushEv.headD (.ready (.ok ())), { s with flushEv := s.flushEv.tail })

/-- Model of `Sink::poll_close` on the framed socket. -/
def Socket.pollClose (s : Socket) : Poll (Except Nat Unit) × Socket :=
  (s.closeEv.headD (.ready (.ok ())), { s with closeEv := s.closeEv.tail })

/-- Model of `Stream::poll_next` on the framed socket: the next inbound
frame, `none` for a clean end of stream. -/
def Socket.pollRead (s : Socket) : Poll (Option (Except Nat Msg)) × Socket :=
  (s.readEv.headD .pending, { s with readEv := s.readEv.tail })

/-! ## Inbound substream -/

/-- State of the handshake sending back process
(`NotificationsInSubstreamHandshake`). -/
inductive NotificationsInSubstreamHandshake where
  | NotSent
  | PendingSend (msg : Msg)
  | Close
  | Sent
deriving DecidableEq

/-- A substream for incoming notification messages
(`NotificationsInSubstream`): the framed socket plus the handshake state. -/
structure NotificationsInSubstream where
  socket : Socket
  handshake : NotificationsInSubstreamHandshake
deriving DecidableEq

/-- Rank of a handshake state in the order
`NotSent < PendingSend < Close < Sent`. -/
def hsRank : NotificationsInSubstreamHandshake → Nat
  | .NotSent => 0
  | .PendingSend _ => 1
  | .Close => 2
  | .Sent => 3

/-- Model of `NotificationsInSubstream::send_handshake`: outside `NotSent`
the call only logs at error level and returns, discarding the payload. -/
def send_handshake (s : NotificationsInSubstream) (message : Msg) :
    NotificationsInSubstream :=
  match s.handshake with
  | .NotSent => { s with handshake := .PendingSend message }
  | _ => s

/-- Outcome type of one poll of the inbound substream: an optional received
frame or error, paired with the substream after the poll. -/
abbrev InPoll := Poll (Option (Except Nat Msg)) × NotificationsInSubstream

/-- The `Sent` arm of the `poll_next` loop: read the next frame. -/
def pollNextSent (sock : Socket) : InPoll :=
  match sock.pollRead with
  | (r, sock') => (r, ⟨sock', .Sent⟩)

/-- The `Close` arm of the `poll_next` loop: poll closing the write half; on
completion the loop continues in `Sent`. An error from the close leaves the
state at `Sent` because the loop's `mem::replace` had already stored `Sent`
when the early return fires. -/
def pollNextClose (sock : Socket) : InPoll :=
  match sock.pollClose with
  | (.ready (.ok _), sock') => pollNextSent sock'
  | (.ready (.error e), sock') => (.ready (some (.error e)), ⟨sock', .Sent⟩)
  | (.pending, sock') => (.pending, ⟨sock', .Close⟩)

/-- The `PendingSend` arm of the `poll_next` loop: when the socket reports
any ready result the state is set to `Close` and the payload is started into
the sink; on success the loop continues at `Close`. -/
def pollNextPendingSend (sock : Socket) (msg : Msg) : InPoll :=
  match sock.pollReady with
  | (.ready _, sock') =>
      match sock'.startSend msg with
      | (.ok _, sock'') => pollNextClose sock''
      | (.error e, sock'') => (.ready (some (.error e)), ⟨sock'', .Close⟩)
  | (.pending, sock') => (.pending, ⟨sock', .PendingSend msg⟩)

/-- Model of `Stream::poll_next` for `NotificationsInSubstream`. The source's
loop can only move forward through the handshake states, so it runs at most
once per state; the arms above are that loop unrolled. In `NotSent` the poll
returns pending without touching the channel. -/
def poll_next (s : NotificationsInSubstream) : InPoll :=
  match s.handshake with
  | .NotSent => (.pending, s)
  | .PendingSend msg => pollNextPendingSend s.socket msg
  | .Close => pollNextClose s.socket
  | .Sent => pollNextSent s.socket

/-- An operation a user can perform on an inbound substream. -/
inductive InOp where
  | sendHandshake (msg : Msg)
  | pollNext
deriving DecidableEq

/-- Apply one operation to an inbound substream, keeping the substream
component of the outcome. -/
def applyInOp (s : NotificationsInSubstream) : InOp → NotificationsInSubstream
  | .sendHandshake m => send_handshake s m
  | .pollNext => (poll_next s).2

/-- Run a sequence of operations on an inbound substream. -/
def runInOps (s : NotificationsInSubstream) (ops : List InOp) :
    NotificationsInSubstream :=
  ops.foldl applyInOp s

/-! ## Outbound substream -/

/-- A substream for outgoing notification messages
(`NotificationsOutSubstream`): the framed socket, the queue of messages
waiting to be sent (front at the head), and the `need_flush` flag. -/
structure NotificationsOutSubstream where
  socket : Socket
  messages_queue : List Msg
  need_flush : Bool
deriving DecidableEq

/-- Model of `NotificationsOutSubstream::queue_len`: the queue length capped
to the 32-bit maximum. -/
def queue_len (s : NotificationsOutSubstream) : Nat :=
  min s.messages_queue.length (2 ^ 32 - 1)

/-- Model of `NotificationsOutSubstream::push_message`: refuse with `Clogged`
when the queue already holds `MAX_PENDING_MESSAGES` messages, otherwise
append at the back. The channel is never touched. -/
def push_message (s : NotificationsOutSubstream) (item : Msg) :
    Except NotificationsOutError Unit × NotificationsOutSubstream :=
  if s.messages_queue.length ≥ MAX_PENDING_MESSAGES then
    (.error .Clogged, s)
  else
    (.ok (), { s with messages_queue := s.messages_queue ++ [item] })

/-- Push a whole list of messages in order, stopping at the first failure;
the boolean records whether every push succeeded. -/
def pushAll (s : NotificationsOutSubstream) : List Msg →
    Bool × NotificationsOutSubstream
  | [] => (true, s)
  | m :: ms =>
      match push_message s m with
      | (.ok _, s') => pushAll s' ms
      | (.error _, s') => (false, s')

/-- Outcome type of one poll of an outbound-substream sink operation. -/
abbrev OutPoll := Poll (Except NotificationsOutError Unit) × NotificationsOutSubstream

/-- Model of `Sink::poll_ready` for `NotificationsOutSubstream`: always ready
with success, whatever the queue and the channel hold, and nothing changes. -/
def poll_ready (s : NotificationsOutSubstream) : OutPoll :=
  (.ready (.ok ()), s)

/-- The `while !messages_queue.is_empty()` loop of `poll_flush` followed by
its final flush step, written as structural recursion on the queue: while
the queue is non-empty, poll the socket for readiness, pop the front message
and start sending it, setting `need_flush`; when the queue is empty, poll
the socket's flush if `need_flush` is set and clear it on completion. -/
def flushLoop (sock : Socket) : List Msg → Bool → OutPoll
  | m :: rest, nf =>
      match sock.pollReady with
      | (.ready (.error e), sock') => (.ready (.error (.Io e)), ⟨sock', m :: rest, nf⟩)
      | (.ready (.ok _), sock') =>
          match sock'.startSend m with
          | (.ok _, sock'') => flushLoop sock'' rest true
          | (.error e, sock'') => (.ready (.error (.Io e)), ⟨sock'', rest, nf⟩)
      | (.pending, sock') => (.pending, ⟨sock', m :: rest, nf⟩)
  | [], nf =>
      if nf then
        match sock.pollFlush with
        | (.ready (.error e), sock') => (.ready (.error (.Io e)), ⟨sock', [], nf⟩)
        | (.ready (.ok _), sock') => (.ready (.ok ()), ⟨sock', [], false⟩)
        | (.pending, sock') => (.pending, ⟨sock', [], nf⟩)
      else
        (.ready (.ok ()), ⟨sock, [], nf⟩)

/-- Model of `Sink::poll_flush` for `NotificationsOutSubstream`. -/
def poll_flush (s : NotificationsOutSubstream) : OutPoll :=
  flushLoop s.socket s.messages_queue s.need_flush

/-- Model of `Sink::poll_close` for `NotificationsOutSubstream`: first drive
the flush to completion (`ready!` propagates pending, `?` propagates its
error), then poll closing the socket. -/
def poll_close (s : NotificationsOutSubstream) : OutPoll :=
  match poll_flush s with
  | (.pending, s') => (.pending, s')
  | (.ready (.error e), s') => (.ready (.error e), s')
  | (.ready (.ok _), s') =>
      match s'.socket.pollClose with
      | (.ready (.ok _), sock) => (.ready (.ok ()), { s' with socket := sock })
      | (.ready (.error e), sock) => (.ready (.error (.Io e)), { s' with socket := sock })
      | (.pending, sock) => (.pending, { s' with socket := sock })

/-! ## Helper lemmas -/

/-- A framed socket with every schedule empty: each operation answers
ready/success and nothing has been written yet. -/
def emptySocket : Socket := ⟨[], [], [], [], [], []⟩

/-- Pushing a list of messages that fits under the cap succeeds and appends
the whole list at the back of the queue, touching nothing else. -/
lemma pushAll_ok (ms : List Msg) : ∀ s : NotificationsOutSubstream,
    s.messages_queue.length + ms.length ≤ MAX_PENDING_MESSAGES →
    pushAll s ms = (true, { s with messages_queue := s.messages_queue ++ ms }) := by
  induction ms with
  | nil => intro s _; simp [pushAll]
  | cons m ms ih =>
      intro s h
      have hlt : ¬ s.messages_queue.length ≥ MAX_PENDING_MESSAGES := by
        simp only [List.length_cons] at h
        omega
      rw [pushAll, push_message, if_neg hlt]
      show pushAll { s with messages_queue := s.messages_queue ++ [m] } ms = _
      rw [ih]
      · simp
      · simp only [List.length_append, List.length_cons, List.length_nil]
        simp only [List.length_cons] at h
        omega

/-- In `send_handshake`, any state other than `NotSent` makes the call a
no-op. -/
lemma send_handshake_noop (s : NotificationsInSubstream) (m : Msg)
    (h : s.handshake ≠ .NotSent) : send_handshake s m = s := by
  cases hs : s.handshake <;> simp [send_handshake, hs] at h ⊢

/-- The `Sent` arm leaves the handshake state at `Sent`. -/
lemma pollNextSent_handshake (sock : Socket) :
    (pollNextSent sock).2.handshake = .Sent := rfl

/-- The `Sent` arm reads from the socket and touches nothing else of it. -/
lemma pollNextSent_written (sock : Socket) :
    (pollNextSent sock).2.socket.written = sock.written := rfl

/-- The `Close` arm leaves the handshake state at `Close` or `Sent`. -/
lemma pollNextClose_handshake (sock : Socket) :
    (pollNextClose sock).2.handshake = .Close ∨
    (pollNextClose sock).2.handshake = .Sent := by
  rcases hc : sock.pollClose with ⟨rc, sock'⟩
  cases rc with
  | pending => simp [pollNextClose, hc]
  | ready r =>
      cases r with
      | ok u => simp [pollNextClose, hc, pollNextSent_handshake]
      | error e => simp [pollNextClose, hc]

/-- The `Close` arm never writes a frame. -/
lemma pollNextClose_written (sock : Socket) :
    (pollNextClose sock).2.socket.written = sock.written := by
  rcases hc : sock.pollClose with ⟨rc, sock'⟩
  have hw : sock'.written = sock.written := by
    simp [Socket.pollClose] at hc
    rw [← hc.2]
  cases rc with
  | pending => simp [pollNextClose, hc, hw]
  | ready r =>
      cases r with
      | ok u => simp [pollNextClose, hc, pollNextSent, Socket.pollRead, hw]
      | error e => simp [pollNextClose, hc, hw]

/-- If the `Close` arm does not reach `Sent` it performs no read. -/
lemma pollNextClose_readEv (sock : Socket)
    (h : (pollNextClose sock).2.handshake ≠ .Sent) :
    (pollNextClose sock).2.socket.readEv = sock.readEv := by
  rcases hc : sock.pollClose with ⟨rc, sock'⟩
  have hr : sock'.readEv = sock.readEv := by
    simp [Socket.pollClose] at hc
    rw [← hc.2]
  cases rc with
  | pending => simp [pollNextClose, hc, hr]
  | ready r =>
      cases r with
      | ok u => simp [pollNextClose, hc, pollNextSent_handshake] at h
      | error e => simp [pollNextClose, hc] at h

/-- A frame can only come out of the `Close` arm by falling through to the
`Sent` arm. -/
lemma pollNextClose_ok_sent (sock : Socket) (m : Msg)
    (h : (pollNextClose sock).1 = .ready (some (.ok m))) :
    (pollNextClose sock).2.handshake = .Sent := by
  rcases hc : sock.pollClose with ⟨rc, sock'⟩
  cases rc with
  | pending => simp [pollNextClose, hc] at h
  | ready r =>
      cases r with
      | ok u => simp [pollNextClose, hc, pollNextSent_handshake]
      | error e => simp [pollNextClose, hc] at h

/-- The `PendingSend` arm leaves the handshake state at `PendingSend`,
`Close` or `Sent`. -/
lemma pollNextPendingSend_handshake (sock : Socket) (msg : Msg) :
    (pollNextPendingSend sock msg).2.handshake = .PendingSend msg ∨
    (pollNextPendingSend sock msg).2.handshake = .Close ∨
    (pollNextPendingSend sock msg).2.handshake = .Sent := by
  rcases hr : sock.pollReady with ⟨r, sock'⟩
  cases r with
  | pending => simp [pollNextPendingSend, hr]
  | ready x =>
      rcases hsend : sock'.startSend msg with ⟨r2, sock''⟩
      cases r2 with
      | ok u =>
          rcases pollNextClose_handshake sock'' with h | h <;>
            simp [pollNextPendingSend, hr, hsend, h]
      | error e => simp [pollNextPendingSend, hr, hsend]

/-- One operation never lowers the handshake state's rank. -/
lemma rank_le_applyInOp (s : NotificationsInSubstream) (op : InOp) :
    hsRank s.handshake ≤ hsRank (applyInOp s op).handshake := by
  cases op with
  | sendHandshake m =>
      cases hs : s.handshake <;> simp [applyInOp, send_handshake, hs, hsRank]
  | pollNext =>
      cases hs : s.handshake with
      | NotSent => simp [applyInOp, poll_next, hs]
      | Sent => simp [applyInOp, poll_next, hs, pollNextSent_handshake, hsRank]
      | Close =>
          rcases pollNextClose_handshake s.socket with h | h <;>
            simp [applyInOp, poll_next, hs, h, hsRank]
      | PendingSend msg =>
          rcases pollNextPendingSend_handshake s.socket msg with h | h | h <;>
            simp [applyInOp, poll_next, hs, h, hsRank]

/-- A sequence of operations never lowers the handshake state's rank. -/
lemma rank_le_runInOps (s : NotificationsInSubstream) (ops : List InOp) :
    hsRank s.handshake ≤ hsRank (runInOps s ops).handshake := by
  induction ops generalizing s with
  | nil => simp [runInOps]
  | cons op ops ih =>
      calc hsRank s.handshake ≤ hsRank (applyInOp s op).handshake := rank_le_applyInOp s op
        _ ≤ hsRank (runInOps (applyInOp s op) ops).handshake := ih _
        _ = hsRank (runInOps s (op :: ops)).handshake := by simp [runInOps]

/-- Draining with a cooperative socket (no scheduled readiness or send
responses, so every poll answers ready/success) starts every queued message
into the socket in order and proceeds to the final flush step, with
`need_flush` set whenever a message was started. -/
lemma flushLoop_coop (q : List Msg) : ∀ (sock : Socket) (nf : Bool),
    sock.readyEv = [] → sock.sendEv = [] →
    flushLoop sock q nf =
      flushLoop { sock with written := sock.written ++ q } [] (nf || !q.isEmpty) := by
  induction q with
  | nil =>
      rintro ⟨re, se, fe, ce, rde, w⟩ nf h1 h2
      simp
  | cons m rest ih =>
      rintro ⟨re, se, fe, ce, rde, w⟩ nf h1 h2
      simp only at h1 h2
      subst h1
      subst h2
      rw [flushLoop]
      simp only [Socket.pollReady, Socket.startSend, List.headD_nil, List.tail_nil]
      rw [ih ⟨[], [], fe, ce, rde, w ++ [m]⟩ true rfl rfl]
      simp

/-- With no scheduled flush response, the final flush step completes at once
and clears `need_flush`. -/
lemma flushLoop_nil_flushEv (sock : Socket) (nf : Bool) (hf : sock.flushEv = []) :
    flushLoop sock [] nf = (.ready (.ok ()), ⟨sock, [], false⟩) := by
  rcases sock with ⟨re, se, fe, ce, rde, w⟩
  simp only at hf
  subst hf
  cases nf <;> simp [flushLoop, Socket.pollFlush]

/-- While the channel's flush stays pending, the flush step returns pending
and `need_flush` remains set. -/
lemma flushLoop_nil_pending (sock : Socket) (tl : List (Poll (Except Nat Unit)))
    (hf : sock.flushEv = .pending :: tl) :
    flushLoop sock [] true = (.pending, ⟨{ sock with flushEv := tl }, [], true⟩) := by
  simp [flushLoop, Socket.pollFlush, hf]

/-- When `poll_flush`'s loop completes with success the queue has been fully
drained and `need_flush` is cleared. -/
lemma flushLoop_ready_ok (q : List Msg) : ∀ (sock : Socket) (nf : Bool),
    (flushLoop sock q nf).1 = .ready (.ok ()) →
    (flushLoop sock q nf).2.messages_queue = [] ∧
    (flushLoop sock q nf).2.need_flush = false := by
  induction q with
  | nil =>
      intro sock nf h
      cases nf with
      | false => simp [flushLoop]
      | true =>
          rcases hfl : sock.pollFlush with ⟨r, sock'⟩
          cases r with
          | pending => simp [flushLoop, hfl] at h
          | ready x =>
              cases x with
              | ok u => simp [flushLoop, hfl]
              | error e => simp [flushLoop, hfl] at h
  | cons m rest ih =>
      intro sock nf h
      rcases hr : sock.pollReady with ⟨r, sock'⟩
      cases r with
      | pending => simp [flushLoop, hr] at h
      | ready x =>
          cases x with
          | ok u =>
              rcases hsend : sock'.startSend m with ⟨r2, sock''⟩
              cases r2 with
              | ok v =>
                  have h' : (flushLoop sock'' rest true).1 = .ready (.ok ()) := by
                    simpa [flushLoop, hr, hsend] using h
                  have hres := ih sock'' true h'
                  simpa [flushLoop, hr, hsend] using hres
              | error e => simp [flushLoop, hr, hsend] at h
          | error e => simp [flushLoop, hr] at h

/-! ## Claim theorems: outbound substream -/

/-- C3: `push_message` on an outbound substream returns `Clogged` exactly
when the queue already holds `MAX_PENDING_MESSAGES = 512` messages (under
the data-model invariant that the queue never exceeds the cap, which every
push preserves) and in that case leaves the substream unchanged; otherwise
it appends the message at the back and returns success; after 512
consecutive successful pushes from an empty queue without any drain the next
push returns `Clogged` with the queue length exactly 512; and `push_message`
never touches the channel. -/
theorem push_message_cap_spec (s : NotificationsOutSubstream) (item : Msg)
    (hinv : s.messages_queue.length ≤ MAX_PENDING_MESSAGES) :
    ((push_message s item).1 = .error .Clogged ↔
      s.messages_queue.length = MAX_PENDING_MESSAGES)
    ∧ ((push_message s item).1 = .error .Clogged → (push_message s item).2 = s)
    ∧ (s.messages_queue.length < MAX_PENDING_MESSAGES →
        (push_message s item).1 = .ok () ∧
        (push_message s item).2.messages_queue = s.messages_queue ++ [item])
    ∧ (push_message s item).2.socket = s.socket
    ∧ (push_message s item).2.messages_queue.length ≤ MAX_PENDING_MESSAGES
    ∧ (∀ ms : List Msg, ms.length = MAX_PENDING_MESSAGES → s.messages_queue = [] →
        (pushAll s ms).1 = true ∧
        (pushAll s ms).2.messages_queue = ms ∧
        (push_message (pushAll s ms).2 item).1 = .error .Clogged ∧
        (push_message (pushAll s ms).2 item).2.messages_queue.length =
          MAX_PENDING_MESSAGES) := by
  have hlast : ∀ ms : List Msg, ms.length = MAX_PENDING_MESSAGES →
      s.messages_queue = [] →
      (pushAll s ms).1 = true ∧
      (pushAll s ms).2.messages_queue = ms ∧
      (push_message (pushAll s ms).2 item).1 = .error .Clogged ∧
      (push_message (pushAll s ms).2 item).2.messages_queue.length =
        MAX_PENDING_MESSAGES := by
    intro ms hms hnil
    have hfit : s.messages_queue.length + ms.length ≤ MAX_PENDING_MESSAGES := by
      rw [hnil, hms]
      simp
    rw [pushAll_ok ms s hfit]
    have hq : ({ s with messages_queue := s.messages_queue ++ ms } :
        NotificationsOutSubstream).messages_queue = ms := by
      rw [hnil]
      simp
    have hfull : ({ s with messages_queue := s.messages_queue ++ ms } :
        NotificationsOutSubstream).messages_queue.length ≥ MAX_PENDING_MESSAGES := by
      rw [hq, hms]
    refine ⟨rfl, hq, ?_, ?_⟩ <;> simp [push_message, if_pos hfull, hq, hms]
  by_cases hq : s.messages_queue.length ≥ MAX_PENDING_MESSAGES
  · have heq : s.messages_queue.length = MAX_PENDING_MESSAGES := le_antisymm hinv hq
    refine ⟨?_, ?_, ?_, ?_, ?_, hlast⟩
    · simp [push_message, if_pos hq, heq]
    · intro _
      simp [push_message, if_pos hq]
    · intro hlt
      omega
    · simp [push_message, if_pos hq]
    · simp [push_message, if_pos hq, hinv]
  · have hne : ¬ s.messages_queue.length = MAX_PENDING_MESSAGES := by omega
    refine ⟨?_, ?_, ?_, ?_, ?_, hlast⟩
    · simp [push_message, if_neg hq, hne]
    · intro hcl
      simp [push_message, if_neg hq] at hcl
    · intro _
      simp [push_message, if_neg hq]
    · simp [push_message, if_neg hq]
    · simp only [push_message, if_neg hq]
      simp only [List.length_append, List.length_cons, List.length_nil]
      omega

/-- Witness for C3 at a concrete substream: the empty queue accepts a push,
and 512 pushes followed by a 513th hit the cap. -/
theorem push_message_cap_spec_witness :
    (push_message ⟨emptySocket, [], false⟩ [1]).1 = .ok () ∧
    (pushAll ⟨emptySocket, [], false⟩ (List.replicate 512 [])).1 = true ∧
    (push_message (pushAll ⟨emptySocket, [], false⟩
      (List.replicate 512 [])).2 [1]).1 = .error .Clogged := by
  have h := push_message_cap_spec ⟨emptySocket, [], false⟩ [1] (by decide)
  have hl := h.2.2.2.2.2 (List.replicate 512 [])
    (by norm_num [List.length_replicate, MAX_PENDING_MESSAGES]) rfl
  exact ⟨(h.2.2.1 (by decide)).1, hl.1, hl.2.2.1⟩

/-- C4: pushing `m₁, …, mₖ` and then flushing with a cooperative channel
starts exactly those frames into the channel in enqueue order, byte-exact;
`need_flush` is set while started frames await the channel flush and is
cleared exactly when that flush completes. -/
theorem poll_flush_fifo_spec (sock : Socket) (ms : List Msg)
    (hready : sock.readyEv = []) (hsend : sock.sendEv = [])
    (hlen : ms.length ≤ MAX_PENDING_MESSAGES) :
    (pushAll ⟨sock, [], false⟩ ms).1 = true
    ∧ (pushAll ⟨sock, [], false⟩ ms).2.messages_queue = ms
    ∧ (sock.flushEv = [] →
        ∃ sock', poll_flush (pushAll ⟨sock, [], false⟩ ms).2 =
            (.ready (.ok ()), ⟨sock', [], false⟩)
          ∧ sock'.written = sock.written ++ ms)
    ∧ (∀ tl, sock.flushEv = .pending :: tl → ms ≠ [] →
        ∃ sock', poll_flush (pushAll ⟨sock, [], false⟩ ms).2 =
            (.pending, ⟨sock', [], true⟩)
          ∧ sock'.written = sock.written ++ ms) := by
  have hfit : (⟨sock, [], false⟩ :
      NotificationsOutSubstream).messages_queue.length + ms.length ≤
      MAX_PENDING_MESSAGES := by simpa using hlen
  rw [pushAll_ok ms _ hfit]
  simp only [List.nil_append]
  refine ⟨by simp, by simp, ?_, ?_⟩
  · intro hf
    refine ⟨{ sock with written := sock.written ++ ms }, ?_, rfl⟩
    show flushLoop sock ms false = _
    rw [flushLoop_coop ms sock false hready hsend]
    exact flushLoop_nil_flushEv _ _ (by simpa using hf)
  · intro tl hf hne
    refine ⟨{ sock with written := sock.written ++ ms, flushEv := tl }, ?_, rfl⟩
    show flushLoop sock ms false = _
    rw [flushLoop_coop ms sock false hready hsend]
    have hb : (false || !ms.isEmpty) = true := by
      simp [List.isEmpty_iff, hne]
    rw [hb]
    have := flushLoop_nil_pending { sock with written := sock.written ++ ms } tl
      (by simpa using hf)
    simpa using this

/-- Witness for C4 at a concrete cooperative socket and two messages. -/
theorem poll_flush_fifo_spec_witness :
    (pushAll ⟨emptySocket, [], false⟩ [[1], [2]]).1 = true ∧
    (pushAll ⟨emptySocket, [], false⟩ [[1], [2]]).2.messages_queue = [[1], [2]] ∧
    ∃ sock', poll_flush (pushAll ⟨emptySocket, [], false⟩ [[1], [2]]).2 =
        (.ready (.ok ()), ⟨sock', [], false⟩)
      ∧ sock'.written = emptySocket.written ++ [[1], [2]] := by
  have h := poll_flush_fifo_spec emptySocket [[1], [2]] rfl rfl
    (by norm_num [MAX_PENDING_MESSAGES])
  exact ⟨h.1, h.2.1, h.2.2.1 rfl⟩

/-- C7: `poll_close` first drives the flush to completion — propagating a
pending or failed flush unchanged — and only then polls closing the channel,
mapping that poll's outcome through; it succeeds only when both the flush
and the close have completed, and a successful flush leaves the queue
drained with `need_flush` cleared. -/
theorem poll_close_flush_then_close_spec (s : NotificationsOutSubstream) :
    ((poll_flush s).1 = .pending → poll_close s = poll_flush s)
    ∧ (∀ e, (poll_flush s).1 = .ready (.error e) → poll_close s = poll_flush s)
    ∧ ((poll_flush s).1 = .ready (.ok ()) →
        (poll_flush s).2.messages_queue = [] ∧ (poll_flush s).2.need_flush = false
        ∧ (((poll_flush s).2.socket.pollClose).1 = .pending →
            (poll_close s).1 = .pending)
        ∧ (∀ e, ((poll_flush s).2.socket.pollClose).1 = .ready (.error e) →
            (poll_close s).1 = .ready (.error (.Io e)))
        ∧ (((poll_flush s).2.socket.pollClose).1 = .ready (.ok ()) →
            (poll_close s).1 = .ready (.ok ())))
    ∧ ((poll_close s).1 = .ready (.ok ()) →
        (poll_flush s).1 = .ready (.ok ()) ∧
        ((poll_flush s).2.socket.pollClose).1 = .ready (.ok ())) := by
  rcases hf : poll_flush s with ⟨r, s'⟩
  cases r with
  | pending =>
      refine ⟨fun _ => by simp [poll_close, hf], fun e he => by simp at he, ?_, ?_⟩
      · intro h
        simp at h
      · intro h
        simp [poll_close, hf] at h
  | ready x =>
      cases x with
      | error e0 =>
          refine ⟨fun h => by simp at h, fun e he => by simp [poll_close, hf], ?_, ?_⟩
          · intro h
            simp at h
          · intro h
            simp [poll_close, hf] at h
      | ok u =>
          have hf' : flushLoop s.socket s.messages_queue s.need_flush =
              (Poll.ready (Except.ok ()), s') := by
            cases u
            exact hf
          have hqnf := flushLoop_ready_ok s.messages_queue s.socket s.need_flush
            (by rw [hf'])
          have hq : s'.messages_queue = [] ∧ s'.need_flush = false := by
            rw [hf'] at hqnf
            exact hqnf
          rcases hc : s'.socket.pollClose with ⟨rc, sockc⟩
          refine ⟨fun h => by simp at h, fun e he => by simp at he, ?_, ?_⟩
          · intro _
            refine ⟨hq.1, hq.2, ?_, ?_, ?_⟩
            · intro hp
              cases rc with
              | pending => simp [poll_close, hf, hc]
              | ready y => simp [hc] at hp
            · intro e he
              cases rc with
              | pending => simp [hc] at he
              | ready y =>
                  cases y with
                  | ok v => simp [hc] at he
                  | error e2 =>
                      have : e2 = e := by simpa [hc] using he
                      subst this
                      simp [poll_close, hf, hc]
            · intro hok
              cases rc with
              | pending => simp [hc] at hok
              | ready y =>
                  cases y with
                  | ok v => simp [poll_close, hf, hc]
                  | error e2 => simp [hc] at hok
          · intro hok
            refine ⟨rfl, ?_⟩
            cases rc with
            | pending => simp [poll_close, hf, hc] at hok
            | ready y =>
                cases y with
                | ok v => simp [hc]
                | error e2 => simp [poll_close, hf, hc] at hok

/-- Witness for C7 at a concrete substream whose flush completes at once and
whose close is ready. -/
theorem poll_close_flush_then_close_spec_witness :
    (poll_close ⟨emptySocket, [[3]], false⟩).1 = .ready (.ok ()) := by
  have h := poll_close_flush_then_close_spec ⟨emptySocket, [[3]], false⟩
  exact (h.2.2.1 (by decide)).2.2.2.2 (by decide)

/-- C8: the outbound substream's `Sink::poll_ready` always returns ready
with success and changes nothing, whatever the queue and the channel hold;
it never returns pending and never an error. -/
theorem poll_ready_always_ready (s : NotificationsOutSubstream) :
    poll_ready s = (.ready (.ok ()), s) := rfl

/-- C9: `NotificationsOut::new` is total — it constructs a descriptor for
every protocol name and every initial message, an oversized one included
(the source merely logs an error) — and stores both byte-for-byte
unchanged. -/
theorem notificationsOut_new_total (pn : List Nat) (im : Msg) :
    (NotificationsOut.new pn im).protocol_name = pn ∧
    (NotificationsOut.new pn im).initial_message = im :=
  ⟨rfl, rfl⟩

/-- Polling readiness only consumes the readiness schedule; the read
schedule is untouched. -/
lemma pollReady_readEv (sock : Socket) : (sock.pollReady).2.readEv = sock.readEv := rfl

/-- Starting a send never touches the read schedule. -/
lemma startSend_readEv (sock : Socket) (m : Msg) :
    (sock.startSend m).2.readEv = sock.readEv := by
  cases hs : sock.sendEv with
  | nil => simp [Socket.startSend, hs]
  | cons e tl => cases e <;> simp [Socket.startSend, hs]

/-- If the `PendingSend` arm does not reach `Sent` it performs no read. -/
lemma pollNextPendingSend_readEv (sock : Socket) (msg : Msg)
    (h : (pollNextPendingSend sock msg).2.handshake ≠ .Sent) :
    (pollNextPendingSend sock msg).2.socket.readEv = sock.readEv := by
  rcases hr : sock.pollReady with ⟨r, sock'⟩
  have hr2 : sock'.readEv = sock.readEv := by
    have := pollReady_readEv sock
    rw [hr] at this
    exact this
  cases r with
  | pending => simpa [pollNextPendingSend, hr] using hr2
  | ready x =>
      rcases hsend : sock'.startSend msg with ⟨r2, sock''⟩
      have hs2 : sock''.readEv = sock.readEv := by
        have := startSend_readEv sock' msg
        rw [hsend] at this
        rw [this, hr2]
      cases r2 with
      | ok u =>
          have h' : (pollNextClose sock'').2.handshake ≠ .Sent := by
            simpa [pollNextPendingSend, hr, hsend] using h
          have := pollNextClose_readEv sock'' h'
          simpa [pollNextPendingSend, hr, hsend, this] using hs2
      | error e => simpa [pollNextPendingSend, hr, hsend] using hs2

/-- A frame can only come out of the `PendingSend` arm by falling through to
the `Sent` arm. -/
lemma pollNextPendingSend_ok_sent (sock : Socket) (msg m : Msg)
    (h : (pollNextPendingSend sock msg).1 = .ready (some (.ok m))) :
    (pollNextPendingSend sock msg).2.handshake = .Sent := by
  rcases hr : sock.pollReady with ⟨r, sock'⟩
  cases r with
  | pending => simp [pollNextPendingSend, hr] at h
  | ready x =>
      rcases hsend : sock'.startSend msg with ⟨r2, sock''⟩
      cases r2 with
      | ok u =>
          have h' : (pollNextClose sock'').1 = .ready (some (.ok m)) := by
            simpa [pollNextPendingSend, hr, hsend] using h
          simpa [pollNextPendingSend, hr, hsend] using
            pollNextClose_ok_sent sock'' m h'
      | error e => simp [pollNextPendingSend, hr, hsend] at h

/-! ## Claim theorems: inbound substream -/

/-- C2: the inbound handshake-reply state only moves forward along
`NotSent → PendingSend → Close → Sent` under any sequence of
`send_handshake` and `poll_next` operations; a poll in `NotSent` is pending
and touches nothing; a poll in `PendingSend` stays put while the channel is
not ready and reaches at least `Close`, starting the payload into the
channel, exactly when it is ready; a poll in `Close` stays put while the
channel's close is pending and reaches `Sent` exactly when the close poll
completes; a poll in `Sent` reads and returns the next frame; and no poll
reads a frame before the state machine has reached `Sent`. -/
theorem poll_next_state_machine_spec (s : NotificationsInSubstream) :
    (∀ ops : List InOp, hsRank s.handshake ≤ hsRank (runInOps s ops).handshake)
    ∧ (s.handshake = .NotSent → poll_next s = (.pending, s))
    ∧ (∀ msg, s.handshake = .PendingSend msg →
        ((s.socket.pollReady).1 = .pending →
          poll_next s = (.pending, ⟨(s.socket.pollReady).2, .PendingSend msg⟩))
        ∧ (2 ≤ hsRank (poll_next s).2.handshake ↔ (s.socket.pollReady).1 ≠ .pending)
        ∧ (∀ r0 sock0, s.socket.pollReady = (.ready r0, sock0) → sock0.sendEv = [] →
            (poll_next s).2.socket.written = sock0.written ++ [msg]))
    ∧ (s.handshake = .Close →
        ((s.socket.pollClose).1 = .pending →
          poll_next s = (.pending, ⟨(s.socket.pollClose).2, .Close⟩))
        ∧ ((poll_next s).2.handshake = .Sent ↔ (s.socket.pollClose).1 ≠ .pending))
    ∧ (s.handshake = .Sent →
        poll_next s = ((s.socket.pollRead).1, ⟨(s.socket.pollRead).2, .Sent⟩))
    ∧ ((poll_next s).2.handshake ≠ .Sent →
        (poll_next s).2.socket.readEv = s.socket.readEv)
    ∧ (∀ m, (poll_next s).1 = .ready (some (.ok m)) →
        (poll_next s).2.handshake = .Sent) := by
  refine ⟨fun ops => rank_le_runInOps s ops, ?_, ?_, ?_, ?_, ?_, ?_⟩
  · intro h
    simp [poll_next, h]
  · intro msg hps
    have hpn : poll_next s = pollNextPendingSend s.socket msg := by
      simp [poll_next, hps]
    rcases hr : s.socket.pollReady with ⟨r, sock'⟩
    rw [hpn]
    cases r with
    | pending =>
        refine ⟨fun _ => by simp [pollNextPendingSend, hr], ?_, ?_⟩
        · constructor
          · intro h2
            simp [pollNextPendingSend, hr, hsRank] at h2
          · intro hne
            exact absurd rfl hne
        · intro r0 sock0 heq
          simp at heq
    | ready x =>
        rcases hsend : sock'.startSend msg with ⟨r2, sock''⟩
        have hrank2 : 2 ≤ hsRank (pollNextPendingSend s.socket msg).2.handshake := by
          cases r2 with
          | ok u =>
              rcases pollNextClose_handshake sock'' with h | h <;>
                simp [pollNextPendingSend, hr, hsend, h, hsRank]
          | error e => simp [pollNextPendingSend, hr, hsend, hsRank]
        refine ⟨fun hp => by simp at hp, by simp [hrank2], ?_⟩
        intro r0 sock0 heq hse
        rw [Prod.mk.injEq] at heq
        obtain ⟨hx, hs0⟩ := heq
        subst hs0
        have hstart : sock'.startSend msg =
            (.ok (), { sock' with sendEv := [], written := sock'.written ++ [msg] }) := by
          simp [Socket.startSend, hse]
        simp only [pollNextPendingSend, hr, hstart]
        rw [pollNextClose_written]
  · intro hcl
    have hpn : poll_next s = pollNextClose s.socket := by
      simp [poll_next, hcl]
    rcases hc : s.socket.pollClose with ⟨rc, sockc⟩
    rw [hpn]
    cases rc with
    | pending =>
        refine ⟨fun _ => by simp [pollNextClose, hc], ?_⟩
        constructor
        · intro hsent
          simp [pollNextClose, hc] at hsent
        · intro hne
          exact absurd rfl hne
    | ready x =>
        refine ⟨fun hp => by simp at hp, ?_⟩
        constructor
        · intro _
          simp
        · intro _
          cases x with
          | ok u => simp [pollNextClose, hc, pollNextSent_handshake]
          | error e => simp [pollNextClose, hc]
  · intro hse
    rcases hread : s.socket.pollRead with ⟨r, sock'⟩
    simp [poll_next, hse, pollNextSent, hread]
  · intro hns
    cases hs : s.handshake with
    | NotSent => simp [poll_next, hs]
    | Sent =>
        have hcontra : (poll_next s).2.handshake = .Sent := by
          simp [poll_next, hs, pollNextSent_handshake]
        exact absurd hcontra hns
    | Close =>
        have he : poll_next s = pollNextClose s.socket := by simp [poll_next, hs]
        rw [he]
        exact pollNextClose_readEv s.socket (by rw [← he]; exact hns)
    | PendingSend msg =>
        have he : poll_next s = pollNextPendingSend s.socket msg := by
          simp [poll_next, hs]
        rw [he]
        exact pollNextPendingSend_readEv s.socket msg (by rw [← he]; exact hns)
  · intro m hok
    cases hs : s.handshake with
    | NotSent => simp [poll_next, hs] at hok
    | Sent => simp [poll_next, hs, pollNextSent_handshake]
    | Close =>
        have he : poll_next s = pollNextClose s.socket := by simp [poll_next, hs]
        rw [he]
        exact pollNextClose_ok_sent s.socket m (by rw [← he]; exact hok)
    | PendingSend msg =>
        have he : poll_next s = pollNextPendingSend s.socket msg := by
          simp [poll_next, hs]
        rw [he]
        exact pollNextPendingSend_ok_sent s.socket msg m (by rw [← he]; exact hok)

/-- Witness for C2 at concrete substreams: a poll in `NotSent` is pending
and unchanged, and a poll in `PendingSend` with a cooperative socket reaches
at least `Close`. -/
theorem poll_next_state_machine_spec_witness :
    poll_next ⟨emptySocket, .NotSent⟩ = (.pending, ⟨emptySocket, .NotSent⟩) ∧
    2 ≤ hsRank (poll_next ⟨emptySocket, .PendingSend [5]⟩).2.handshake := by
  have h1 := poll_next_state_machine_spec ⟨emptySocket, .NotSent⟩
  have h2 := poll_next_state_machine_spec ⟨emptySocket, .PendingSend [5]⟩
  exact ⟨h1.2.1 rfl, ((h2.2.2.1 [5] rfl).2.1).mpr (by decide)⟩

/-- C6: only the first `send_handshake` call matters: in `NotSent` it stores
its payload and moves the state to `PendingSend`, and after that first call
every further `send_handshake`, whatever state any sequence of operations
has led to, is a no-op returning the substream unchanged; a call outside
`NotSent` is always such a no-op. -/
theorem send_handshake_first_call_spec (s : NotificationsInSubstream) (m : Msg) :
    (s.handshake = .NotSent →
      send_handshake s m = ⟨s.socket, .PendingSend m⟩ ∧
      ∀ (ops : List InOp) (m2 : Msg),
        send_handshake (runInOps (send_handshake s m) ops) m2 =
          runInOps (send_handshake s m) ops)
    ∧ (s.handshake ≠ .NotSent → send_handshake s m = s) := by
  refine ⟨?_, fun h => send_handshake_noop s m h⟩
  intro h
  have h1 : send_handshake s m = ⟨s.socket, .PendingSend m⟩ := by
    simp [send_handshake, h]
  refine ⟨h1, ?_⟩
  intro ops m2
  have hrank : 1 ≤ hsRank (runInOps (send_handshake s m) ops).handshake := by
    have h0 : hsRank (send_handshake s m).handshake = 1 := by
      simp [h1, hsRank]
    have := rank_le_runInOps (send_handshake s m) ops
    omega
  apply send_handshake_noop
  intro hns
  rw [hns] at hrank
  simp [hsRank] at hrank

/-- Witness for C6 at a concrete substream: the first call stores the
payload; a second call after the first is a no-op. -/
theorem send_handshake_first_call_spec_witness :
    send_handshake ⟨emptySocket, .NotSent⟩ [1] = ⟨emptySocket, .PendingSend [1]⟩ ∧
    send_handshake (runInOps (send_handshake ⟨emptySocket, .NotSent⟩ [1]) []) [2] =
      runInOps (send_handshake ⟨emptySocket, .NotSent⟩ [1]) [] := by
  have h := (send_handshake_first_call_spec ⟨emptySocket, .NotSent⟩ [1]).1 rfl
  exact ⟨h.1, h.2 [] [2]⟩

/-- C10: `send_handshake` modifies only the handshake-state field: the
framed socket — schedules and written frames alike — is returned unchanged,
so no read, write, flush or close happens on the channel; in `NotSent` the
payload is stored as `PendingSend`, in every other state the substream is
returned entirely unchanged. -/
theorem send_handshake_frame_spec (s : NotificationsInSubstream) (m : Msg) :
    (send_handshake s m).socket = s.socket
    ∧ (s.handshake = .NotSent → (send_handshake s m).handshake = .PendingSend m)
    ∧ (s.handshake ≠ .NotSent → send_handshake s m = s) := by
  refine ⟨?_, ?_, fun h => send_handshake_noop s m h⟩
  · cases hs : s.handshake <;> simp [send_handshake, hs]
  · intro h
    simp [send_handshake, h]

/-- Witness for C10 at a concrete substream in `NotSent`. -/
theorem send_handshake_frame_spec_witness :
    (send_handshake ⟨emptySocket, .NotSent⟩ [9]).socket = emptySocket ∧
    (send_handshake ⟨emptySocket, .NotSent⟩ [9]).handshake = .PendingSend [9] := by
  have h := send_handshake_frame_spec ⟨emptySocket, .NotSent⟩ [9]
  exact ⟨h.1, h.2.1 rfl⟩

/-! ## Claim theorems: handshake routines -/

/-- After the initial write, the outbound handshake performs exactly the
inbound handshake's read-validate-read sequence on the channel. -/
lemma upgrade_outbound_eq (d : NotificationsOut) (sock : RawSocket) :
    upgrade_outbound d sock =
      upgrade_inbound (writeLenPrefixed sock d.initial_message) := rfl

/-- The inbound handshake yields exactly `TooLarge n 1024` when the decoded
length n exceeds the cap, and a payload when it does not. -/
lemma upgrade_inbound_spec (sock : RawSocket) (n : Nat) (s1 : RawSocket)
    (hin : read_usize sock = .ok (n, s1)) :
    (upgrade_inbound sock = .error (.TooLarge n MAX_HANDSHAKE_SIZE) ↔
      n > MAX_HANDSHAKE_SIZE)
    ∧ (n ≤ MAX_HANDSHAKE_SIZE →
        ∃ msg rest, upgrade_inbound sock = .ok (msg, rest)) := by
  by_cases h : n > MAX_HANDSHAKE_SIZE
  · constructor
    · constructor
      · intro _
        exact h
      · intro _
        simp [upgrade_inbound, hin, if_pos h]
    · intro hle
      omega
  · constructor
    · constructor
      · intro habs
        by_cases h0 : n = 0
        · simp [upgrade_inbound, hin, if_neg h, h0] at habs
        · rcases hri : s1.readInto n with ⟨got, s2⟩
          simp [upgrade_inbound, hin, if_neg h, h0, hri] at habs
      · intro hgt
        exact absurd hgt h
    · intro _
      by_cases h0 : n = 0
      · exact ⟨[], s1, by simp [upgrade_inbound, hin, if_neg h, h0]⟩
      · rcases hri : s1.readInto n with ⟨got, s2⟩
        exact ⟨got ++ List.replicate (n - got.length) 0, s2,
          by simp [upgrade_inbound, hin, if_neg h, h0, hri]⟩

/-- C1: for an announced handshake length n, the inbound handshake (reading
the initial message) and the outbound handshake (reading the reply) fail
with exactly `TooLarge { requested: n, max: 1024 }` iff n > 1024; for every
n ≤ 1024 — n = 0 and n = 1024 included — no `TooLarge` arises and the
handshake proceeds to return a payload. -/
theorem handshake_tooLarge_iff (sock sockO : RawSocket) (d : NotificationsOut)
    (n m : Nat) (s1 s2 : RawSocket)
    (hin : read_usize sock = .ok (n, s1))
    (hout : read_usize (writeLenPrefixed sockO d.initial_message) = .ok (m, s2)) :
    (upgrade_inbound sock = .error (.TooLarge n MAX_HANDSHAKE_SIZE) ↔
      n > MAX_HANDSHAKE_SIZE)
    ∧ (n ≤ MAX_HANDSHAKE_SIZE →
        ∃ msg rest, upgrade_inbound sock = .ok (msg, rest))
    ∧ (upgrade_outbound d sockO = .error (.TooLarge m MAX_HANDSHAKE_SIZE) ↔
        m > MAX_HANDSHAKE_SIZE)
    ∧ (m ≤ MAX_HANDSHAKE_SIZE →
        ∃ msg rest, upgrade_outbound d sockO = .ok (msg, rest)) := by
  have hi := upgrade_inbound_spec sock n s1 hin
  have ho := upgrade_inbound_spec (writeLenPrefixed sockO d.initial_message) m s2 hout
  refine ⟨hi.1, hi.2, ?_, ?_⟩
  · rw [upgrade_outbound_eq]
    exact ho.1
  · rw [upgrade_outbound_eq]
    exact ho.2

/-- Witness for C1 at a concrete channel announcing 1033 > 1024: both
routines fail with `TooLarge 1033 1024`. -/
theorem handshake_tooLarge_iff_witness :
    upgrade_inbound ⟨[[137, 8]], []⟩ =
      .error (.TooLarge 1033 MAX_HANDSHAKE_SIZE) ∧
    upgrade_outbound (NotificationsOut.new [1] [9, 9]) ⟨[[137, 8]], []⟩ =
      .error (.TooLarge 1033 MAX_HANDSHAKE_SIZE) := by
  have h := handshake_tooLarge_iff ⟨[[137, 8]], []⟩ ⟨[[137, 8]], []⟩
    (NotificationsOut.new [1] [9, 9]) 1033 1033 ⟨[], []⟩ ⟨[], [2, 9, 9]⟩
    (by decide) (by decide)
  exact ⟨h.1.mpr (by decide), h.2.2.1.mpr (by decide)⟩

/-- C5: the handshake routines do NOT read exactly n bytes — they perform a
single `read` call whose returned byte count is ignored. On a channel that
announces a 2-byte payload but delivers a single 1-byte chunk `[7]` before
end of stream, the inbound routine returns the zero-padded payload `[7, 0]`
with no I/O error, and the outbound routine behaves identically; the n = 0
no-read case does hold. -/
theorem handshake_short_read_zero_pads :
    upgrade_inbound ⟨[[2], [7]], []⟩ = .ok ([7, 0], ⟨[], []⟩) ∧
    upgrade_outbound (NotificationsOut.new [] []) ⟨[[2], [7]], []⟩ =
      .ok ([7, 0], ⟨[], [0]⟩) ∧
    upgrade_inbound ⟨[[0]], []⟩ = .ok ([], ⟨[], []⟩) := by
  refine ⟨by decide, by decide, by decide⟩

end Notifications
